import Mathlib

/-!
Shallow embedding of the BCI-CP signal-processing / classification /
adaptation core (backend services), with theorems checking the
natural-language specification against the code.

Numbers: JavaScript `number` values are modelled as exact rationals `ℚ`;
decimal literals in the source become the same literals over `ℚ`.
Strings keep their source spelling (`"YES"`, `"NO"`, `"target"`, ...).
-/

namespace BCICP

/-! ## Decision logic service (`decisionLogicService.ts`) -/

/-- One entry of the prediction history handed to `smoothPredictions`
(fields `prediction : string`, `confidence : number`). -/
structure PredictionEntry where
  prediction : String
  confidence : ℚ
deriving Repr, DecidableEq, Inhabited

/-- Result record of `smoothPredictions`. -/
structure SmoothResult where
  decision : String
  confidence : ℚ
deriving Repr, DecidableEq

/-- `smoothPredictions(predictions, windowSize)` from
`decisionLogicService.ts`: empty history returns `{NO, 0.5}`; otherwise the
last `windowSize` entries are kept (`slice(max(0, len - windowSize))`,
which is `List.drop (len - windowSize)` with truncated subtraction), the
confidence is the weight-`(i+1)` average over the window, and the decision
is `YES` iff the number of `"YES"` labels reaches
`Math.ceil(window.length / 2)` (which is `(len + 1) / 2` in `ℕ`). -/
def smoothPredictions (predictions : List PredictionEntry) (windowSize : ℕ) :
    SmoothResult :=
  if predictions.length = 0 then { decision := "NO", confidence := 0.5 }
  else
    let window := predictions.drop (predictions.length - windowSize)
    let weightedConfidence :=
      (window.enum.map (fun p => p.2.confidence * ((p.1 : ℚ) + 1))).sum
    let weightSum := (window.enum.map (fun p => ((p.1 : ℚ) + 1))).sum
    let avgConfidence := weightedConfidence / weightSum
    let yesCount := (window.filter (fun p => p.prediction = "YES")).length
    let threshold := (window.length + 1) / 2
    { decision := if yesCount ≥ threshold then "YES" else "NO"
      confidence := avgConfidence }

/-- Result record of `adaptDifficulty`. -/
structure AdaptResult where
  newFlashSpeed : ℚ
  newObjectCount : ℚ
  notification : String
deriving Repr, DecidableEq

/-- `adaptDifficulty(recentAccuracy, currentFlashSpeed, currentObjectCount)`
from `decisionLogicService.ts`, translated branch for branch: the high- and
low-performance arms first clamp-update the flash speed, then either move
the object count or apply a second multiplicative speed change. -/
def adaptDifficulty (recentAccuracy currentFlashSpeed currentObjectCount : ℚ) :
    AdaptResult :=
  if recentAccuracy > 0.7 then
    let newFlashSpeed := min 1.5 (currentFlashSpeed * 1.1)
    if currentObjectCount < 4 then
      { newFlashSpeed := newFlashSpeed
        newObjectCount := currentObjectCount + 1
        notification := "Great job! Adding more objects." }
    else
      { newFlashSpeed := min 1.5 (newFlashSpeed * 1.15)
        newObjectCount := currentObjectCount
        notification := "Excellent! Speeding up the game." }
  else if recentAccuracy < 0.4 then
    let newFlashSpeed := max 0.6 (currentFlashSpeed * 0.9)
    if currentObjectCount > 3 then
      { newFlashSpeed := newFlashSpeed
        newObjectCount := currentObjectCount - 1
        notification := "Let's slow down a bit. Removing an object." }
    else
      { newFlashSpeed := max 0.6 (newFlashSpeed * 0.85)
        newObjectCount := currentObjectCount
        notification := "No worries! We'll take it slower." }
  else
    { newFlashSpeed := currentFlashSpeed
      newObjectCount := currentObjectCount
      notification := "You're doing great! Keep going!" }

/-- One step of the adaptation loop on the `(flashSpeed, objectCount)` part
of the calibration state. -/
def adaptStep (recentAccuracy : ℚ) (s : ℚ × ℚ) : ℚ × ℚ :=
  let r := adaptDifficulty recentAccuracy s.1 s.2
  (r.newFlashSpeed, r.newObjectCount)

/-- `n` rounds of the adaptation loop, round `k` fed the accuracy `accs k`. -/
def iterAdapt (accs : ℕ → ℚ) : ℕ → ℚ × ℚ → ℚ × ℚ
  | 0, s => s
  | n + 1, s => adaptStep (accs n) (iterAdapt accs n s)

/-! ## LDA classifier (`ldaClassifier.ts`)

`Math.exp` is transcendental, so the classifier is parameterised by an
arbitrary function `Exp : ℚ → ℚ` standing for it; nothing proved here
depends on its values. `ℚ` division is total with `x / 0 = 0` where
JavaScript would produce `Infinity`/`NaN`; no claim exercises those
degenerate divisions. -/

/-- A 3-feature vector `{mean, peak, latency}` (`types/index.ts`). -/
structure FeatureVector where
  mean : ℚ
  peak : ℚ
  latency : ℚ
deriving Repr, DecidableEq, Inhabited

/-- Classifier output `{prediction, confidence}` (`types/index.ts`). -/
structure ClassificationResult where
  prediction : String
  confidence : ℚ
deriving Repr, DecidableEq

/-- A length-3 vector, standing for the source's `number[]` of length 3
indexed `[mean, peak, latency]`. -/
structure Vec3 where
  v0 : ℚ
  v1 : ℚ
  v2 : ℚ
deriving Repr, DecidableEq

/-- A 3×3 matrix, standing for the source's `number[][]`; field `mIJ` is
entry `[i][j]`. -/
structure Mat3 where
  m00 : ℚ
  m01 : ℚ
  m02 : ℚ
  m10 : ℚ
  m11 : ℚ
  m12 : ℚ
  m20 : ℚ
  m21 : ℚ
  m22 : ℚ
deriving Repr, DecidableEq

/-- The mutable fields of class `LDAClassifier`. -/
structure LDAState where
  weights : Vec3
  bias : ℚ
  isTrained : Bool
  threshold : ℚ
deriving Repr, DecidableEq

/-- The field initialisers of `LDAClassifier`:
`weights = [0,0,0]`, `bias = 0`, `isTrained = false`, `threshold = 0.5`. -/
def initialLDAState : LDAState :=
  { weights := ⟨0, 0, 0⟩, bias := 0, isTrained := false, threshold := 0.5 }

/-- `dotProduct` (reduce of pairwise products). -/
def dotProduct (a b : Vec3) : ℚ :=
  a.v0 * b.v0 + a.v1 * b.v1 + a.v2 * b.v2

/-- `matrixVectorMultiply` (3×3 times 3×1). -/
def matrixVectorMultiply (m : Mat3) (v : Vec3) : Vec3 :=
  ⟨m.m00 * v.v0 + m.m01 * v.v1 + m.m02 * v.v2,
   m.m10 * v.v0 + m.m11 * v.v1 + m.m12 * v.v2,
   m.m20 * v.v0 + m.m21 * v.v1 + m.m22 * v.v2⟩

/-- `calculateMean`: componentwise sum (a reduce from `{0,0,0}`) divided by
the class size. -/
def calculateMean (features : List FeatureVector) : FeatureVector :=
  let n : ℚ := features.length
  let sum := features.foldl
    (fun acc f => FeatureVector.mk (acc.mean + f.mean) (acc.peak + f.peak)
      (acc.latency + f.latency))
    ⟨0, 0, 0⟩
  ⟨sum.mean / n, sum.peak / n, sum.latency / n⟩

/-- One iteration of the covariance accumulation loops: add the outer
product of `(x - classMean)` with itself to the running matrix. -/
def covAccum (classMean : FeatureVector) (cov : Mat3) (f : FeatureVector) :
    Mat3 :=
  let d0 := f.mean - classMean.mean
  let d1 := f.peak - classMean.peak
  let d2 := f.latency - classMean.latency
  ⟨cov.m00 + d0 * d0, cov.m01 + d0 * d1, cov.m02 + d0 * d2,
   cov.m10 + d1 * d0, cov.m11 + d1 * d1, cov.m12 + d1 * d2,
   cov.m20 + d2 * d0, cov.m21 + d2 * d1, cov.m22 + d2 * d2⟩

/-- `calculatePooledCovariance`: accumulate both classes' centred outer
products, divide every entry by `n - 2`, then add `1e-6` to the
diagonal. -/
def calculatePooledCovariance (class1 class2 : List FeatureVector)
    (mean1 mean2 : FeatureVector) : Mat3 :=
  let n : ℚ := class1.length + class2.length
  let acc := class2.foldl (covAccum mean2)
    (class1.foldl (covAccum mean1) ⟨0, 0, 0, 0, 0, 0, 0, 0, 0⟩)
  let d := n - 2
  let eps : ℚ := 1 / 1000000
  ⟨acc.m00 / d + eps, acc.m01 / d, acc.m02 / d,
   acc.m10 / d, acc.m11 / d + eps, acc.m12 / d,
   acc.m20 / d, acc.m21 / d, acc.m22 / d + eps⟩

/-- The determinant expansion used by `invert3x3`. -/
def det3 (m : Mat3) : ℚ :=
  m.m00 * (m.m11 * m.m22 - m.m12 * m.m21) -
    m.m01 * (m.m10 * m.m22 - m.m12 * m.m20) +
    m.m02 * (m.m10 * m.m21 - m.m11 * m.m20)

/-- `invert3x3`: adjugate over determinant, with the identity-matrix
fallback when `|det| < 1e-10`. -/
def invert3x3 (m : Mat3) : Mat3 :=
  let det := det3 m
  if |det| < 1 / 10000000000 then
    ⟨1, 0, 0, 0, 1, 0, 0, 0, 1⟩
  else
    ⟨(m.m11 * m.m22 - m.m12 * m.m21) / det,
     (m.m02 * m.m21 - m.m01 * m.m22) / det,
     (m.m01 * m.m12 - m.m02 * m.m11) / det,
     (m.m12 * m.m20 - m.m10 * m.m22) / det,
     (m.m00 * m.m22 - m.m02 * m.m20) / det,
     (m.m02 * m.m10 - m.m00 * m.m12) / det,
     (m.m10 * m.m21 - m.m11 * m.m20) / det,
     (m.m01 * m.m20 - m.m00 * m.m21) / det,
     (m.m00 * m.m11 - m.m01 * m.m10) / det⟩

/-- `LDAClassifier.train(data)`: the two validation guards return with no
state change; otherwise the features are partitioned by label (the index
loop over aligned `labels`/`features` is the zip), per-class means, the
regularised pooled covariance, its inverse, the weight vector
`Σ⁻¹(μ_yes − μ_no)` and the bias `−0.5·wᵀ(μ_yes + μ_no)` are computed,
and the classifier becomes trained. The threshold is never touched. -/
def train (s : LDAState) (features : List FeatureVector)
    (labels : List String) : LDAState :=
  if features.length = 0 ∨ labels.length ≠ features.length then s
  else
    let yesFeatures :=
      ((labels.zip features).filter (fun p => p.1 = "YES")).map (fun p => p.2)
    let noFeatures :=
      ((labels.zip features).filter (fun p => ¬ p.1 = "YES")).map
        (fun p => p.2)
    if yesFeatures.length = 0 ∨ noFeatures.length = 0 then s
    else
      let meanYes := calculateMean yesFeatures
      let meanNo := calculateMean noFeatures
      let covMatrix :=
        calculatePooledCovariance yesFeatures noFeatures meanYes meanNo
      let covInv := invert3x3 covMatrix
      let meanDiff : Vec3 :=
        ⟨meanYes.mean - meanNo.mean, meanYes.peak - meanNo.peak,
         meanYes.latency - meanNo.latency⟩
      let weights := matrixVectorMultiply covInv meanDiff
      let meanSum : Vec3 :=
        ⟨meanYes.mean + meanNo.mean, meanYes.peak + meanNo.peak,
         meanYes.latency + meanNo.latency⟩
      { weights := weights
        bias := -0.5 * dotProduct weights meanSum
        isTrained := true
        threshold := s.threshold }

/-- `sigmoid(x) = 1 / (1 + Math.exp(-x))`, with `Exp` standing for
`Math.exp`. -/
def sigmoid (Exp : ℚ → ℚ) (x : ℚ) : ℚ :=
  1 / (1 + Exp (-x))

/-- `LDAClassifier.predict(features)`: the untrained fallback, else the
sigmoid of the linear score against the decision threshold. -/
def predict (Exp : ℚ → ℚ) (s : LDAState) (features : FeatureVector) :
    ClassificationResult :=
  if s.isTrained = false then
    { prediction := "NO", confidence := 0.5 }
  else
    let featureArray : Vec3 := ⟨features.mean, features.peak, features.latency⟩
    let score := dotProduct s.weights featureArray + s.bias
    let confidence := sigmoid Exp score
    { prediction := if confidence > s.threshold then "YES" else "NO"
      confidence := confidence }

/-- `LDAClassifier.setThreshold`: clamp to `[0, 1]`. -/
def setThreshold (s : LDAState) (threshold : ℚ) : LDAState :=
  { s with threshold := max 0 (min 1 threshold) }

/-! ## Preprocessing service (`preprocessingService.ts`) -/

/-- The inner moving-average window of `applyBandpassFilter` at index `i`:
samples `j` with `max(0, i-2) ≤ j < min(len, i+3)` (window size 5,
edge-truncated), averaged. -/
def movingAvgAt (filtered : List ℚ) (i : ℕ) : ℚ :=
  let lo := i - 2
  let hi := min filtered.length (i + 3)
  let window := (filtered.drop lo).take (hi - lo)
  window.sum / window.length

/-- One pass of the width-5 edge-truncated moving-average smoother. -/
def movingAvgPass (filtered : List ℚ) : List ℚ :=
  (List.range filtered.length).map (movingAvgAt filtered)

/-- The sequential high-pass decay `filtered[i] -= filtered[i-1] * 0.95`
for `i ≥ 1`, using the already-updated previous sample; `prev` is the
updated value at the previous index. -/
def hpAux (prev : ℚ) : List ℚ → List ℚ
  | [] => []
  | y :: ys => (y - prev * 0.95) :: hpAux (y - prev * 0.95) ys

/-- The high-pass decay stage of `applyBandpassFilter` (index 0 is
unchanged). -/
def highPassDecay : List ℚ → List ℚ
  | [] => []
  | x :: xs => x :: hpAux x xs

/-- `applyBandpassFilter(signal, order)`: `order` moving-average passes
followed by the recursive high-pass decay. -/
def applyBandpassFilter (signal : List ℚ) (order : ℕ) : List ℚ :=
  highPassDecay (movingAvgPass^[order] signal)

/-- One iteration of the notch-filter loop: output index `acc.length` is
the input sample for the first `periodSamples` indices and otherwise the
`0.8/0.2` blend with the already-blended sample one period earlier
(`acc ++ [x]` makes the lookback read the input sample itself when
`periodSamples = 0`, as the in-place JavaScript loop does). -/
def notchStep (periodSamples : ℕ) (acc : List ℚ) (x : ℚ) : List ℚ :=
  if acc.length < periodSamples then acc ++ [x]
  else acc ++ [0.8 * x + 0.2 * ((acc ++ [x]).getD (acc.length - periodSamples) 0)]

/-- `applyNotchFilter(signal, samplingRate)` with
`periodSamples = samplingRate / 50`, floored at its use sites (the
service passes a nonnegative sampling rate, 250 by default). -/
def applyNotchFilter (signal : List ℚ) (samplingRate : ℚ) : List ℚ :=
  let periodSamples := samplingRate / 50
  signal.foldl (notchStep ⌊periodSamples⌋.toNat) []

/-- The `{rawSignal, filteredSignal}` response of `preprocessSignal`. -/
structure PreprocessedSignalResponse where
  rawSignal : List ℚ
  filteredSignal : List ℚ
deriving Repr, DecidableEq

/-- `preprocessSignal(rawSignal, samplingRate)`: bandpass (order 2), notch,
then subtract the arithmetic mean from every sample. -/
def preprocessSignal (rawSignal : List ℚ) (samplingRate : ℚ) :
    PreprocessedSignalResponse :=
  let f1 := applyBandpassFilter rawSignal 2
  let f2 := applyNotchFilter f1 samplingRate
  let mean := f2.sum / f2.length
  { rawSignal := rawSignal, filteredSignal := f2.map (fun sample => sample - mean) }

/-! ## Signal simulation service (`eegSimulationService`)

`Math.sqrt`, `Math.log`, `Math.cos`, `Math.exp` and `Math.PI` are
transcendental, so the simulator is parameterised by a record of rational
stand-ins for them; `Math.random` is an input stream of draws. The
source's `while (u === 0) u = Math.random()` retry loops guarantee the
two uniform draws fed to the Box-Muller transform are nonzero, so each
sample's pair of post-retry draws is the stream value. -/

/-- Rational stand-ins for the JavaScript `Math` primitives the simulator
calls. -/
structure JSMath where
  sqrtQ : ℚ → ℚ
  logQ : ℚ → ℚ
  cosQ : ℚ → ℚ
  expQ : ℚ → ℚ
  piQ : ℚ

/-- `params.x || d`: JavaScript `||` substitutes the default both for a
missing (`undefined`) field and for the falsy number `0` (`NaN` is not
modelled). -/
def jsOrDefault (x : Option ℚ) (d : ℚ) : ℚ :=
  match x with
  | none => d
  | some v => if v = 0 then d else v

/-- Optional-field simulation parameters (`SignalSimulationParams`). -/
structure SignalSimulationParams where
  type : String
  samplingRate : Option ℚ
  duration : Option ℚ
  noiseLevel : Option ℚ

/-- `{timestamps, rawSignal}` response of the simulator. -/
structure EEGSignalResponse where
  timestamps : List ℚ
  rawSignal : List ℚ
deriving Repr, DecidableEq

/-- `generateGaussianNoise(mean, stdDev)` with the post-retry uniform pair
`u`: `z0 = sqrt(-2 log u1) * cos(2 π u2)`, returned as
`z0 * stdDev + mean`. -/
def generateGaussianNoise (M : JSMath) (u : ℚ × ℚ) (mean stdDev : ℚ) : ℚ :=
  M.sqrtQ (-2 * M.logQ u.1) * M.cosQ (2 * M.piQ * u.2) * stdDev + mean

/-- `generateEEGSignal(params)`: `||`-defaulting of the three numeric
parameters, `numSamples = floor(samplingRate * duration / 1000)` (a
negative floor runs the loops zero times, as `Int.toNat` does),
timestamps `i * 1000 / samplingRate`, and per-sample Gaussian baseline
noise plus, for the target class inside `[300, 600]` ms, the bell
component `5 * exp(-((t-450)/75)^2 / 2)`. -/
def generateEEGSignal (M : JSMath) (draws : ℕ → ℚ × ℚ)
    (params : SignalSimulationParams) : EEGSignalResponse :=
  let samplingRate := jsOrDefault params.samplingRate 250
  let duration := jsOrDefault params.duration 1000
  let noiseLevel := jsOrDefault params.noiseLevel 0.5
  let numSamples := (⌊samplingRate * duration / 1000⌋).toNat
  let timestamps := (List.range numSamples).map
    (fun (i : ℕ) => ((i : ℚ) * 1000) / samplingRate)
  let rawSignal := (List.range numSamples).map (fun (i : ℕ) =>
    let baselineNoise := generateGaussianNoise M (draws i) 0 noiseLevel
    if params.type = "target" then
      let timeMs := timestamps.getD i 0
      if 300 ≤ timeMs ∧ timeMs ≤ 600 then
        baselineNoise + 5 * M.expQ (-(((timeMs - 450) / 75) ^ 2) / 2)
      else baselineNoise
    else baselineNoise)
  { timestamps := timestamps, rawSignal := rawSignal }

/-- A concrete `JSMath` instantiation (identity stand-ins, `piQ = 3`) used
only to evaluate the embedding at specific inputs. -/
def idJSMath : JSMath :=
  { sqrtQ := fun x => x, logQ := fun x => x, cosQ := fun x => x,
    expQ := fun x => x, piQ := 3 }

/-! ## Feature extraction service (`featureExtractionService.ts`) -/

/-- The scan loop of `findClosestIndex`: `i` is the index of the head of
the remaining list, `minDiff`/`closestIdx` the best difference and index
so far; only a strictly smaller difference replaces the best, so ties
keep the first occurrence. -/
def findClosestAux (target : ℚ) : List ℚ → ℕ → ℚ → ℕ → ℕ
  | [], _, _, closestIdx => closestIdx
  | x :: xs, i, minDiff, closestIdx =>
      if |x - target| < minDiff then
        findClosestAux target xs (i + 1) (|x - target|) i
      else
        findClosestAux target xs (i + 1) minDiff closestIdx

/-- `findClosestIndex(array, target)`: the scan starts from
`minDiff = |array[0] - target|`, `closestIdx = 0` (on the empty array the
JavaScript loop body never runs and 0 is returned). -/
def findClosestIndex (array : List ℚ) (target : ℚ) : ℕ :=
  match array with
  | [] => 0
  | x :: xs => findClosestAux target xs 1 (|x - target|) 0

/-- `Math.max(...list)`: the maximum of a list, folded from its head; the
empty case (JavaScript `-Infinity`) is unreachable at the use site, which
is guarded by a non-empty window. -/
def listMaxQ : List ℚ → ℚ
  | [] => 0
  | x :: xs => xs.foldl max x

/-- The `slice(startIdx, endIdx + 1)` taken by `extractFeatures` from a
list `l`, with both boundary indices located on `timestamps` by
nearest-timestamp match to 300 ms and 600 ms. -/
def p300Window (l timestamps : List ℚ) : List ℚ :=
  (l.drop (findClosestIndex timestamps 300)).take
    (findClosestIndex timestamps 600 + 1 - findClosestIndex timestamps 300)

/-- `extractFeatures(filteredSignal, timestamps)`: window
`slice(startIdx, endIdx + 1)` between the nearest-timestamp indices of
300 ms and 600 ms, zero vector on an empty window, else the window mean,
the maximum absolute value, and the timestamp at `findIndex` of the first
exact peak match (`windowTimestamps[peakIdx] || 0` is `getD _ 0`: an
out-of-range or zero timestamp both give 0). -/
def extractFeatures (filteredSignal timestamps : List ℚ) : FeatureVector :=
  let windowSignal := p300Window filteredSignal timestamps
  let windowTimestamps := p300Window timestamps timestamps
  if windowSignal.length = 0 then
    { mean := 0, peak := 0, latency := 0 }
  else
    let mean := windowSignal.sum / windowSignal.length
    let peak := listMaxQ (windowSignal.map (fun s => |s|))
    let peakIdx := windowSignal.findIdx (fun s => |s| = peak)
    let latency := windowTimestamps.getD peakIdx 0
    { mean := mean, peak := peak, latency := latency }

/-- Specification-level characterisation of nearest-timestamp lookup: `k`
is in range, its difference to `target` is minimal, and every earlier
index has a strictly larger difference (ties go to the first occurrence
of the left-to-right scan). -/
def NearestFirstIdx (l : List ℚ) (target : ℚ) (k : ℕ) : Prop :=
  k < l.length ∧
    (∀ j < l.length, |l.getD k 0 - target| ≤ |l.getD j 0 - target|) ∧
    (∀ j < k, |l.getD k 0 - target| < |l.getD j 0 - target|)

/-! ## Helper lemmas -/

lemma getD_range_map (f : ℕ → ℚ) (n i : ℕ) (h : i < n) :
    (((List.range n).map f).getD i 0) = f i := by
  rw [List.getD_eq_getElem _ _ (by simpa using h)]
  simp

/-- Scan invariant of `findClosestAux`: if the best-so-far index `best`
beats every already-scanned index (those before `i`) and strictly beats
every index before itself, the scan of the rest of the list returns a
`NearestFirstIdx` of the whole list. -/
lemma findClosestAux_invariant (target : ℚ) (l : List ℚ) :
    ∀ (n i best : ℕ), n = l.length - i → best < i → i ≤ l.length →
      (∀ j < i, |l.getD best 0 - target| ≤ |l.getD j 0 - target|) →
      (∀ j < best, |l.getD best 0 - target| < |l.getD j 0 - target|) →
      NearestFirstIdx l target
        (findClosestAux target (l.drop i) i (|l.getD best 0 - target|) best) := by
  intro n
  induction n with
  | zero =>
      intro i best hn hbi hil hmin hstrict
      have hi : i = l.length := by omega
      have hdrop : l.drop i = [] := by
        rw [hi, List.drop_length]
      rw [hdrop, findClosestAux]
      exact ⟨by omega, fun j hj => hmin j (by omega), hstrict⟩
  | succ n ih =>
      intro i best hn hbi hil hmin hstrict
      have hi : i < l.length := by omega
      have hdrop : l.drop i = l.getD i 0 :: l.drop (i + 1) := by
        rw [List.getD_eq_getElem _ _ hi]
        exact List.drop_eq_getElem_cons hi
      rw [hdrop, findClosestAux]
      split_ifs with hlt
      · refine ih (i + 1) i (by omega) (by omega) (by omega) ?_ ?_
        · intro j hj
          rcases Nat.lt_succ_iff_lt_or_eq.mp hj with hj | hj
          · exact le_trans (le_of_lt hlt) (hmin j hj)
          · rw [hj]
        · intro j hj
          exact lt_of_lt_of_le hlt (hmin j hj)
      · refine ih (i + 1) best (by omega) (by omega) (by omega) ?_ hstrict
        intro j hj
        rcases Nat.lt_succ_iff_lt_or_eq.mp hj with hj | hj
        · exact hmin j hj
        · rw [hj]
          exact not_lt.mp hlt

/-- `findClosestIndex` returns the index of the nearest element, first
occurrence on ties. -/
lemma findClosestIndex_spec (l : List ℚ) (target : ℚ) (hne : l ≠ []) :
    NearestFirstIdx l target (findClosestIndex l target) := by
  cases l with
  | nil => exact absurd rfl hne
  | cons x xs =>
      have h := findClosestAux_invariant target (x :: xs)
        ((x :: xs).length - 1) 1 0 rfl (by omega) (by simp)
        (fun j hj => by interval_cases j; exact le_refl _)
        (fun j hj => absurd hj (Nat.not_lt_zero j))
      simpa [findClosestIndex] using h

lemma le_foldl_max (l : List ℚ) (a : ℚ) : a ≤ l.foldl max a := by
  induction l generalizing a with
  | nil => exact le_refl a
  | cons y ys ih => exact le_trans (le_max_left a y) (ih (max a y))

lemma mem_le_foldl_max (l : List ℚ) (a x : ℚ) (hx : x ∈ l) :
    x ≤ l.foldl max a := by
  induction l generalizing a with
  | nil => cases hx
  | cons y ys ih =>
      rw [List.foldl_cons]
      rcases List.mem_cons.mp hx with h | h
      · exact le_trans (h ▸ le_max_right a y) (le_foldl_max ys (max a y))
      · exact ih (max a y) h

lemma foldl_max_mem (l : List ℚ) (a : ℚ) :
    l.foldl max a = a ∨ l.foldl max a ∈ l := by
  induction l generalizing a with
  | nil => exact Or.inl rfl
  | cons y ys ih =>
      rw [List.foldl_cons]
      rcases ih (max a y) with h | h
      · rcases max_choice a y with hm | hm
        · exact Or.inl (h.trans hm)
        · exact Or.inr (List.mem_cons.mpr (Or.inl (h.trans hm)))
      · exact Or.inr (List.mem_cons.mpr (Or.inr h))

lemma listMaxQ_mem (l : List ℚ) (hne : l ≠ []) : listMaxQ l ∈ l := by
  cases l with
  | nil => exact absurd rfl hne
  | cons x xs =>
      rcases foldl_max_mem xs x with h | h
      · exact List.mem_cons.mpr (Or.inl h)
      · exact List.mem_cons.mpr (Or.inr h)

lemma le_listMaxQ (l : List ℚ) (x : ℚ) (hx : x ∈ l) : x ≤ listMaxQ l := by
  cases l with
  | nil => cases hx
  | cons y ys =>
      rcases List.mem_cons.mp hx with h | h
      · exact h ▸ le_foldl_max ys y
      · exact mem_le_foldl_max ys y x h

lemma length_movingAvgPass (l : List ℚ) : (movingAvgPass l).length = l.length := by
  simp [movingAvgPass]

lemma length_hpAux (prev : ℚ) (l : List ℚ) : (hpAux prev l).length = l.length := by
  induction l generalizing prev with
  | nil => rfl
  | cons y ys ih => simp [hpAux, ih]

lemma length_highPassDecay (l : List ℚ) : (highPassDecay l).length = l.length := by
  cases l with
  | nil => rfl
  | cons x xs => simp [highPassDecay, length_hpAux]

lemma length_foldl_notchStep (p : ℕ) (l acc : List ℚ) :
    (l.foldl (notchStep p) acc).length = acc.length + l.length := by
  induction l generalizing acc with
  | nil => simp
  | cons x xs ih =>
      have hstep : (notchStep p acc x).length = acc.length + 1 := by
        unfold notchStep
        split_ifs <;> simp
      rw [List.foldl_cons, ih, hstep, List.length_cons]
      omega

lemma length_applyNotchFilter (l : List ℚ) (rate : ℚ) :
    (applyNotchFilter l rate).length = l.length := by
  simp [applyNotchFilter, length_foldl_notchStep]

lemma length_bandpass_iterate (l : List ℚ) (n : ℕ) :
    (movingAvgPass^[n] l).length = l.length := by
  induction n generalizing l with
  | zero => rfl
  | succ n ih => rw [Function.iterate_succ_apply, ih, length_movingAvgPass]

lemma sum_map_sub_const (l : List ℚ) (m : ℚ) :
    (l.map (fun x => x - m)).sum = l.sum - l.length * m := by
  induction l with
  | nil => simp
  | cons x xs ih =>
      simp only [List.map_cons, List.sum_cons, List.length_cons, ih]
      push_cast
      ring

/-- Summing `f index element` over an enumerated list, as a `Finset.range`
sum (generalised over the starting index of `enumFrom`). -/
lemma sum_map_enumFrom {α : Type} [Inhabited α] (l : List α) (n : ℕ)
    (f : ℕ → α → ℚ) :
    ((l.enumFrom n).map (fun p => f p.1 p.2)).sum
      = ∑ i ∈ Finset.range l.length, f (n + i) (l.getD i default) := by
  induction l generalizing n with
  | nil => simp
  | cons x xs ih =>
      simp only [List.enumFrom, List.map_cons, List.sum_cons, List.length_cons]
      rw [Finset.sum_range_succ', ih (n + 1)]
      simp only [List.getD_cons_zero, List.getD_cons_succ, Nat.add_zero]
      rw [add_comm]
      congr 1
      refine Finset.sum_congr rfl (fun i _ => ?_)
      congr 1
      omega

/-- The same sum over `List.enum` (the source's `window.enum`). -/
lemma sum_map_enum {α : Type} [Inhabited α] (l : List α) (f : ℕ → α → ℚ) :
    (l.enum.map (fun p => f p.1 p.2)).sum
      = ∑ i ∈ Finset.range l.length, f i (l.getD i default) := by
  have h := sum_map_enumFrom l 0 f
  simpa [List.enum] using h

/-- The weighted-confidence accumulator of `smoothPredictions`, as a
`Finset.range` sum. -/
lemma sum_enum_weighted_conf (l : List PredictionEntry) :
    (l.enum.map (fun p => p.2.confidence * ((p.1 : ℚ) + 1))).sum
      = ∑ i ∈ Finset.range l.length,
          (l.getD i default).confidence * ((i : ℚ) + 1) :=
  sum_map_enum l (fun i e => e.confidence * ((i : ℚ) + 1))

/-- The weight accumulator of `smoothPredictions`, as a `Finset.range`
sum. -/
lemma sum_enum_weights (l : List PredictionEntry) :
    (l.enum.map (fun p => ((p.1 : ℚ) + 1))).sum
      = ∑ i ∈ Finset.range l.length, ((i : ℚ) + 1) :=
  sum_map_enum l (fun i _ => ((i : ℚ) + 1))

/-- `Math.ceil(len / 2)` over the rationals agrees with `(len + 1) / 2` in
truncated natural division. -/
lemma ceil_half_eq (n : ℕ) : ⌈(n : ℚ) / 2⌉ = (((n + 1) / 2 : ℕ) : ℤ) := by
  have h1 : n ≤ 2 * ((n + 1) / 2) := by omega
  have h2 : 2 * ((n + 1) / 2) ≤ n + 1 := by omega
  have hq1 : (n : ℚ) ≤ 2 * (((n + 1) / 2 : ℕ) : ℚ) := by exact_mod_cast h1
  have hq2 : 2 * (((n + 1) / 2 : ℕ) : ℚ) ≤ (n : ℚ) + 1 := by exact_mod_cast h2
  rw [Int.ceil_eq_iff, Int.cast_natCast]
  exact ⟨by linarith, by linarith⟩

/-- Single-step bounds preservation for `adaptDifficulty`. -/
lemma adaptStep_bounds (acc : ℚ) {s : ℚ × ℚ}
    (hf0 : 0.6 ≤ s.1) (hf1 : s.1 ≤ 1.5) (hc : s.2 = 3 ∨ s.2 = 4) :
    0.6 ≤ (adaptStep acc s).1 ∧ (adaptStep acc s).1 ≤ 1.5 ∧
      ((adaptStep acc s).2 = 3 ∨ (adaptStep acc s).2 = 4) := by
  obtain ⟨f, c⟩ := s
  dsimp only at hf0 hf1 hc
  simp only [adaptStep, adaptDifficulty]
  split_ifs with h1 h2 h3 h4
  · -- high performance, objectCount < 4
    refine ⟨le_min (by norm_num) (by linarith), min_le_left _ _, ?_⟩
    rcases hc with hc | hc
    · right; rw [hc]; norm_num
    · rw [hc] at h2; norm_num at h2
  · -- high performance, objectCount at the cap
    have hmin : (0.6 : ℚ) ≤ min 1.5 (f * 1.1) := le_min (by norm_num) (by linarith)
    exact ⟨le_min (by norm_num) (by linarith), min_le_left _ _, hc⟩
  · -- low performance, objectCount > 3
    refine ⟨le_max_left _ _, max_le (by norm_num) (by linarith), ?_⟩
    rcases hc with hc | hc
    · rw [hc] at h4; norm_num at h4
    · left; rw [hc]; norm_num
  · -- low performance, objectCount at the floor
    have hmax : max 0.6 (f * 0.9) ≤ 1.35 := max_le (by norm_num) (by linarith)
    refine ⟨le_max_left _ _, max_le (by norm_num) (by linarith), hc⟩
  · -- medium performance: unchanged
    exact ⟨hf0, hf1, hc⟩

namespace Claims

/-- C1 (counterexample): contrary to the claim,
`adaptDifficulty(0.3, 1.0, 3)` does not return `newFlashSpeed = 0.85`; the
code first clamps `1.0 * 0.9` and then multiplies the result by `0.85`. -/
theorem c1_cex : (adaptDifficulty 0.3 1 3).newFlashSpeed ≠ 0.85 := by
  norm_num [adaptDifficulty]

/-- C1 (amended): `adaptDifficulty(0.3, 1.0, 3)` returns
`newFlashSpeed = max(0.6, max(0.6, 1.0*0.9) * 0.85) = 0.765` and
`newObjectCount = 3` (object count already at the floor of 3, so the
flash-speed-only low-performance branch fires after the initial `*0.9`
update). -/
theorem c1_amended :
    adaptDifficulty 0.3 1 3 =
      { newFlashSpeed := 0.765
        newObjectCount := 3
        notification := "No worries! We'll take it slower." }
      ∧ (0.765 : ℚ) = max 0.6 (max 0.6 (1 * 0.9) * 0.85) := by
  constructor
  · norm_num [adaptDifficulty]
  · norm_num

/-- C2: starting from `flashSpeed ∈ [0.6, 1.5]` and
`objectCount ∈ {3, 4}` (the integers of `[3, 4]`), any number of rounds of
`adaptDifficulty`, with arbitrary accuracies, keeps `flashSpeed` in
`[0.6, 1.5]` and `objectCount` in `{3, 4}`; `n = 1` is the single-call
bounds invariant. -/
theorem c2_adapt_bounds (accs : ℕ → ℚ) (f c : ℚ)
    (hf0 : 0.6 ≤ f) (hf1 : f ≤ 1.5) (hc : c = 3 ∨ c = 4) (n : ℕ) :
    0.6 ≤ (iterAdapt accs n (f, c)).1 ∧ (iterAdapt accs n (f, c)).1 ≤ 1.5 ∧
      ((iterAdapt accs n (f, c)).2 = 3 ∨ (iterAdapt accs n (f, c)).2 = 4) := by
  induction n with
  | zero => exact ⟨hf0, hf1, hc⟩
  | succ n ih =>
      obtain ⟨ih0, ih1, ih2⟩ := ih
      exact adaptStep_bounds (accs n) ih0 ih1 ih2

/-- C2 witness at a concrete in-bounds state. -/
theorem c2_witness :
    ((0.6 : ℚ) ≤ 1 ∧ (1 : ℚ) ≤ 1.5 ∧ ((3 : ℚ) = 3 ∨ (3 : ℚ) = 4)) ∧
      (0.6 ≤ (iterAdapt (fun _ => 0.8) 2 (1, 3)).1 ∧
        (iterAdapt (fun _ => 0.8) 2 (1, 3)).1 ≤ 1.5 ∧
        ((iterAdapt (fun _ => 0.8) 2 (1, 3)).2 = 3 ∨
          (iterAdapt (fun _ => 0.8) 2 (1, 3)).2 = 4)) :=
  ⟨⟨by norm_num, by norm_num, Or.inl rfl⟩,
    c2_adapt_bounds (fun _ => 0.8) 1 3 (by norm_num) (by norm_num)
      (Or.inl rfl) 2⟩

/-- C3 (counterexample): on `[{YES,0.85},{YES,0.72},{NO,0.55}]` with
window size 5 the smoothed confidence is `197/300 ≈ 0.657`, not
approximately `0.700` (it is more than `0.04` away from `0.700`). -/
theorem c3_cex :
    (smoothPredictions [⟨"YES", 0.85⟩, ⟨"YES", 0.72⟩, ⟨"NO", 0.55⟩] 5).confidence
        = 197 / 300 ∧
      ¬ |(smoothPredictions [⟨"YES", 0.85⟩, ⟨"YES", 0.72⟩, ⟨"NO", 0.55⟩] 5).confidence
          - 0.7| ≤ 0.04 := by
  have h :
      (smoothPredictions [⟨"YES", 0.85⟩, ⟨"YES", 0.72⟩, ⟨"NO", 0.55⟩] 5).confidence
        = 197 / 300 := by
    norm_num [smoothPredictions, List.enum, List.enumFrom]
  refine ⟨h, ?_⟩
  rw [h]
  rw [abs_le]
  intro hcon
  obtain ⟨hl, _⟩ := hcon
  norm_num at hl

/-- C3 (amended): `smoothPredictions([{YES,0.85},{YES,0.72},{NO,0.55}], 5)`
returns decision `YES` (2 of 3 YES ≥ ceil(3/2) = 2) with confidence
`(1*0.85 + 2*0.72 + 3*0.55)/(1 + 2 + 3) = 197/300 ≈ 0.657`. -/
theorem c3_amended :
    smoothPredictions [⟨"YES", 0.85⟩, ⟨"YES", 0.72⟩, ⟨"NO", 0.55⟩] 5 =
        { decision := "YES", confidence := 197 / 300 } ∧
      (197 / 300 : ℚ) = (1 * 0.85 + 2 * 0.72 + 3 * 0.55) / (1 + 2 + 3) := by
  constructor
  · norm_num [smoothPredictions, List.enum, List.enumFrom]
  · norm_num

/-- C7: `smoothPredictions` returns `{NO, 0.5}` on the empty history; on a
non-empty history with positive window size it uses exactly the last
`windowSize` entries (a suffix, all of them if fewer), its confidence is
the position-weighted average (weight `i + 1`, oldest 1, newest the window
length) of the window's confidences, independent of the labels, and its
decision is `YES` iff the window's `"YES"` count reaches
`ceil(windowLength / 2)`. -/
theorem c7_smooth_spec (predictions : List PredictionEntry) (windowSize : ℕ)
    (hne : predictions ≠ []) (hw : 1 ≤ windowSize) :
    smoothPredictions [] windowSize = { decision := "NO", confidence := 0.5 } ∧
      (predictions.drop (predictions.length - windowSize)) <:+ predictions ∧
      (predictions.drop (predictions.length - windowSize)).length
        = min windowSize predictions.length ∧
      (smoothPredictions predictions windowSize).confidence =
        (∑ i ∈ Finset.range
            (predictions.drop (predictions.length - windowSize)).length,
          ((predictions.drop (predictions.length - windowSize)).getD i
              default).confidence * ((i : ℚ) + 1)) /
        (∑ i ∈ Finset.range
            (predictions.drop (predictions.length - windowSize)).length,
          ((i : ℚ) + 1)) ∧
      ((smoothPredictions predictions windowSize).decision = "YES" ↔
        (((predictions.drop (predictions.length - windowSize)).filter
            (fun p => p.prediction = "YES")).length : ℤ)
          ≥ ⌈((predictions.drop (predictions.length - windowSize)).length : ℚ)
              / 2⌉) := by
  have hlen : predictions.length ≠ 0 := by
    simpa [List.length_eq_zero] using hne
  refine ⟨by simp [smoothPredictions], List.drop_suffix _ _, ?_, ?_, ?_⟩
  · rw [List.length_drop]
    omega
  · simp only [smoothPredictions, if_neg hlen]
    rw [sum_enum_weighted_conf, sum_enum_weights]
  · simp only [smoothPredictions, if_neg hlen]
    rw [ceil_half_eq]
    have hiff :
        ((((predictions.drop (predictions.length - windowSize)).filter
            (fun p => p.prediction = "YES")).length : ℤ)
          ≥ ((((predictions.drop (predictions.length - windowSize)).length + 1)
              / 2 : ℕ) : ℤ))
        ↔ ((predictions.drop (predictions.length - windowSize)).filter
            (fun p => p.prediction = "YES")).length
          ≥ ((predictions.drop (predictions.length - windowSize)).length + 1)
              / 2 := by
      exact_mod_cast Iff.rfl
    rw [hiff]
    split_ifs with hge
    · exact iff_of_true rfl hge
    · exact iff_of_false (by simp) hge

/-- C7 witness at a concrete non-empty history. -/
theorem c7_witness :
    (([⟨"YES", 0.9⟩] : List PredictionEntry) ≠ [] ∧ 1 ≤ 5) ∧
      (smoothPredictions [] 5 = { decision := "NO", confidence := 0.5 } ∧
        (([⟨"YES", 0.9⟩] : List PredictionEntry).drop
            (([⟨"YES", 0.9⟩] : List PredictionEntry).length - 5)) <:+
          [⟨"YES", 0.9⟩] ∧
        (([⟨"YES", 0.9⟩] : List PredictionEntry).drop
            (([⟨"YES", 0.9⟩] : List PredictionEntry).length - 5)).length
          = min 5 ([⟨"YES", 0.9⟩] : List PredictionEntry).length ∧
        (smoothPredictions [⟨"YES", 0.9⟩] 5).confidence =
          (∑ i ∈ Finset.range
              (([⟨"YES", 0.9⟩] : List PredictionEntry).drop
                (([⟨"YES", 0.9⟩] : List PredictionEntry).length - 5)).length,
            ((([⟨"YES", 0.9⟩] : List PredictionEntry).drop
                (([⟨"YES", 0.9⟩] : List PredictionEntry).length - 5)).getD i
                default).confidence * ((i : ℚ) + 1)) /
          (∑ i ∈ Finset.range
              (([⟨"YES", 0.9⟩] : List PredictionEntry).drop
                (([⟨"YES", 0.9⟩] : List PredictionEntry).length - 5)).length,
            ((i : ℚ) + 1)) ∧
        ((smoothPredictions [⟨"YES", 0.9⟩] 5).decision = "YES" ↔
          ((([⟨"YES", 0.9⟩] : List PredictionEntry).drop
              (([⟨"YES", 0.9⟩] : List PredictionEntry).length - 5)).filter
              (fun p => p.prediction = "YES")).length
            ≥ (⌈((([⟨"YES", 0.9⟩] : List PredictionEntry).drop
                (([⟨"YES", 0.9⟩] : List PredictionEntry).length - 5)).length : ℚ)
                / 2⌉ : ℤ))) :=
  ⟨⟨by simp, by norm_num⟩,
    c7_smooth_spec [⟨"YES", 0.9⟩] 5 (by simp) (by norm_num)⟩

/-- C5: an untrained classifier predicts `NO` with confidence `0.5`
without failing; a trained one returns confidence
`sigmoid(w·x + b) = 1/(1 + e^(-score))` over `x = (mean, peak, latency)`
and label `YES` exactly when the confidence exceeds the decision
threshold, else `NO`; the threshold defaults to `0.5` and `setThreshold`
clamps its argument to `[0, 1]`. -/
theorem c5_predict_spec (Exp : ℚ → ℚ) (s : LDAState) (f : FeatureVector)
    (t : ℚ) :
    predict Exp { s with isTrained := false } f =
        { prediction := "NO", confidence := 0.5 } ∧
      (predict Exp { s with isTrained := true } f).confidence =
        1 / (1 + Exp (-(dotProduct s.weights ⟨f.mean, f.peak, f.latency⟩
          + s.bias))) ∧
      ((predict Exp { s with isTrained := true } f).prediction = "YES" ↔
        sigmoid Exp (dotProduct s.weights ⟨f.mean, f.peak, f.latency⟩
          + s.bias) > s.threshold) ∧
      ((predict Exp { s with isTrained := true } f).prediction = "YES" ∨
        (predict Exp { s with isTrained := true } f).prediction = "NO") ∧
      initialLDAState.threshold = 0.5 ∧
      initialLDAState.isTrained = false ∧
      (setThreshold s t).threshold = max 0 (min 1 t) ∧
      0 ≤ (setThreshold s t).threshold ∧
      (setThreshold s t).threshold ≤ 1 := by
  refine ⟨by simp [predict], by simp [predict, sigmoid], ?_, ?_, rfl, rfl,
    rfl, le_max_left _ _, max_le (by norm_num) (min_le_left _ _)⟩
  · simp only [predict, Bool.true_eq_false, if_false]
    split_ifs with hgt
    · exact iff_of_true rfl hgt
    · exact iff_of_false (by simp) hgt
  · simp only [predict, Bool.true_eq_false, if_false]
    split_ifs
    · exact Or.inl rfl
    · exact Or.inr rfl

/-- C6: `train` called with an empty feature list, with misaligned label
and feature lists, or with training data in which one of the two classes
has no example (no label is `"YES"`, or every label is `"YES"`) leaves the
classifier state — weights, bias, threshold and trained flag — exactly as
it was. -/
theorem c6_train_noop (s : LDAState) (features : List FeatureVector)
    (labels : List String)
    (h : features = [] ∨ labels.length ≠ features.length ∨
      ("YES" ∉ labels) ∨ (∀ l ∈ labels, l = "YES")) :
    train s features labels = s := by
  rcases h with h | h | h | h
  · subst h
    simp [train]
  · rw [train, if_pos (Or.inr h)]
  · by_cases h1 : features.length = 0 ∨ labels.length ≠ features.length
    · rw [train, if_pos h1]
    · have hyes : ((labels.zip features).filter (fun p => p.1 = "YES")) = [] := by
        refine List.filter_eq_nil_iff.mpr (fun p hp => ?_)
        obtain ⟨a, b⟩ := p
        obtain ⟨ha, -⟩ := List.of_mem_zip hp
        simp only [decide_eq_true_eq]
        intro heq
        exact h (heq ▸ ha)
      rw [train, if_neg h1]
      simp [hyes]
  · by_cases h1 : features.length = 0 ∨ labels.length ≠ features.length
    · rw [train, if_pos h1]
    · have hno : ((labels.zip features).filter (fun p => ¬ p.1 = "YES")) = [] := by
        refine List.filter_eq_nil_iff.mpr (fun p hp => ?_)
        obtain ⟨a, b⟩ := p
        obtain ⟨ha, -⟩ := List.of_mem_zip hp
        simp only [decide_eq_true_eq]
        intro hne
        exact hne (h a ha)
      rw [train, if_neg h1]
      simp only [decide_not] at hno
      simp [hno]

/-- C6 witness: a single-class training set leaves a (concrete) state
untouched. -/
theorem c6_witness :
    (([⟨1, 2, 3⟩] : List FeatureVector) = [] ∨
        (["NO"] : List String).length ≠ ([⟨1, 2, 3⟩] : List FeatureVector).length ∨
        ("YES" ∉ (["NO"] : List String)) ∨
        (∀ l ∈ (["NO"] : List String), l = "YES")) ∧
      train initialLDAState [⟨1, 2, 3⟩] ["NO"] = initialLDAState :=
  ⟨Or.inr (Or.inr (Or.inl (by simp))),
    c6_train_noop initialLDAState [⟨1, 2, 3⟩] ["NO"]
      (Or.inr (Or.inr (Or.inl (by simp))))⟩

/-- C9: for every non-empty raw signal, `preprocessSignal` returns a
filtered signal of exactly the input's length whose sum — and hence whose
arithmetic mean — is exactly 0 after the final DC-removal stage (the
embedding computes in exact rational arithmetic). -/
theorem c9_preprocess_spec (rawSignal : List ℚ) (samplingRate : ℚ)
    (hne : rawSignal ≠ []) :
    (preprocessSignal rawSignal samplingRate).filteredSignal.length
        = rawSignal.length ∧
      (preprocessSignal rawSignal samplingRate).filteredSignal.sum = 0 ∧
      (preprocessSignal rawSignal samplingRate).filteredSignal.sum /
        (preprocessSignal rawSignal samplingRate).filteredSignal.length = 0 := by
  have hlen : (applyNotchFilter (applyBandpassFilter rawSignal 2)
      samplingRate).length = rawSignal.length := by
    rw [length_applyNotchFilter, applyBandpassFilter, length_highPassDecay,
      length_bandpass_iterate]
  have hlen0 : rawSignal.length ≠ 0 := by
    simpa [List.length_eq_zero] using hne
  have hq : ((applyNotchFilter (applyBandpassFilter rawSignal 2)
      samplingRate).length : ℚ) ≠ 0 := by
    rw [hlen]
    exact_mod_cast hlen0
  have hsum : (preprocessSignal rawSignal samplingRate).filteredSignal.sum = 0 := by
    simp only [preprocessSignal]
    rw [sum_map_sub_const, mul_div_cancel₀ _ hq, sub_self]
  exact ⟨by simp only [preprocessSignal, List.length_map]; exact hlen, hsum,
    by rw [hsum, zero_div]⟩

/-- C9 witness on a concrete three-sample signal. -/
theorem c9_witness :
    ([1, 2, 3] : List ℚ) ≠ [] ∧
      ((preprocessSignal [1, 2, 3] 250).filteredSignal.length
          = ([1, 2, 3] : List ℚ).length ∧
        (preprocessSignal [1, 2, 3] 250).filteredSignal.sum = 0 ∧
        (preprocessSignal [1, 2, 3] 250).filteredSignal.sum /
          (preprocessSignal [1, 2, 3] 250).filteredSignal.length = 0) :=
  ⟨by simp, c9_preprocess_spec [1, 2, 3] 250 (by simp)⟩

/-- C4 (code evaluated at the failing input): a Gaussian draw with
standard deviation 0 is identically 0 — so the claim's reading of
`noiseLevel = 0` would give an identically-zero non-target epoch — but
the `||`-defaulting coerces the passed `noiseLevel = 0` to `0.5`, and a
non-target epoch simulated with `noiseLevel = 0` contains a nonzero
sample (evaluated under concrete stand-ins for `Math`). -/
theorem c4_noise_zero_bug :
    (∀ (M : JSMath) (u : ℚ × ℚ), generateGaussianNoise M u 0 0 = 0) ∧
      jsOrDefault (some 0) 0.5 = 0.5 ∧
      (generateEEGSignal idJSMath (fun _ => (1/2, 1/2))
          { type := "nontarget", samplingRate := some 1, duration := some 1000,
            noiseLevel := some 0 }).rawSignal = [-(3/2)] := by
  refine ⟨fun M u => by simp [generateGaussianNoise], by norm_num [jsOrDefault], ?_⟩
  norm_num [generateEEGSignal, jsOrDefault, idJSMath, generateGaussianNoise,
    List.range_succ]

/-- C10: for every class and noise level (and any positive effective
sampling rate and nonnegative effective duration), the simulated series
and its timestamp list both have length
`floor(samplingRate * duration / 1000)`, and the timestamps are
`i * 1000 / samplingRate`: strictly increasing, evenly spaced by
`1000 / samplingRate` milliseconds. -/
theorem c10_simulate_series (M : JSMath) (draws : ℕ → ℚ × ℚ)
    (params : SignalSimulationParams)
    (hr : 0 < jsOrDefault params.samplingRate 250)
    (hd : 0 ≤ jsOrDefault params.duration 1000) :
    ((generateEEGSignal M draws params).rawSignal.length : ℤ)
        = ⌊jsOrDefault params.samplingRate 250 *
            jsOrDefault params.duration 1000 / 1000⌋ ∧
      (generateEEGSignal M draws params).timestamps.length
        = (generateEEGSignal M draws params).rawSignal.length ∧
      (∀ i < (generateEEGSignal M draws params).timestamps.length,
        (generateEEGSignal M draws params).timestamps.getD i 0
          = ((i : ℚ) * 1000) / jsOrDefault params.samplingRate 250) ∧
      (∀ i, i + 1 < (generateEEGSignal M draws params).timestamps.length →
        (generateEEGSignal M draws params).timestamps.getD i 0
            < (generateEEGSignal M draws params).timestamps.getD (i + 1) 0 ∧
          (generateEEGSignal M draws params).timestamps.getD (i + 1) 0
              - (generateEEGSignal M draws params).timestamps.getD i 0
            = 1000 / jsOrDefault params.samplingRate 250) := by
  have hfloor : (0 : ℤ) ≤ ⌊jsOrDefault params.samplingRate 250 *
      jsOrDefault params.duration 1000 / 1000⌋ :=
    Int.floor_nonneg.mpr (by positivity)
  have hT : (generateEEGSignal M draws params).timestamps
      = (List.range (⌊jsOrDefault params.samplingRate 250 *
          jsOrDefault params.duration 1000 / 1000⌋).toNat).map
        (fun (i : ℕ) => ((i : ℚ) * 1000) / jsOrDefault params.samplingRate 250) :=
    rfl
  have hlenr : (generateEEGSignal M draws params).rawSignal.length
      = (⌊jsOrDefault params.samplingRate 250 *
          jsOrDefault params.duration 1000 / 1000⌋).toNat := by
    show ((List.range _).map _).length = _
    rw [List.length_map, List.length_range]
  have hlent : (generateEEGSignal M draws params).timestamps.length
      = (⌊jsOrDefault params.samplingRate 250 *
          jsOrDefault params.duration 1000 / 1000⌋).toNat := by
    rw [hT, List.length_map, List.length_range]
  have hts : ∀ i < (generateEEGSignal M draws params).timestamps.length,
      (generateEEGSignal M draws params).timestamps.getD i 0
        = ((i : ℚ) * 1000) / jsOrDefault params.samplingRate 250 := by
    intro i hi
    rw [hlent] at hi
    rw [hT]
    exact getD_range_map _ _ _ hi
  refine ⟨?_, by rw [hlenr, hlent], hts, ?_⟩
  · rw [hlenr, Int.toNat_of_nonneg hfloor]
  · intro i hi
    have hi1 : i < (generateEEGSignal M draws params).timestamps.length := by
      omega
    rw [hts i hi1, hts (i + 1) hi]
    constructor
    · have hnum : ((i : ℚ)) * 1000 < ((i + 1 : ℕ) : ℚ) * 1000 := by
        push_cast
        linarith
      exact (div_lt_div_iff_of_pos_right hr).mpr hnum
    · rw [div_sub_div_same]
      congr 1
      push_cast
      ring

/-- C10 witness with all-default parameters. -/
theorem c10_witness :
    ((0 : ℚ) < jsOrDefault none 250 ∧ (0 : ℚ) ≤ jsOrDefault none 1000) ∧
      (((generateEEGSignal idJSMath (fun _ => (1/2, 1/2))
            ⟨"nontarget", none, none, none⟩).rawSignal.length : ℤ)
          = ⌊jsOrDefault none 250 * jsOrDefault none 1000 / 1000⌋ ∧
        (generateEEGSignal idJSMath (fun _ => (1/2, 1/2))
            ⟨"nontarget", none, none, none⟩).timestamps.length
          = (generateEEGSignal idJSMath (fun _ => (1/2, 1/2))
              ⟨"nontarget", none, none, none⟩).rawSignal.length ∧
        (∀ i < (generateEEGSignal idJSMath (fun _ => (1/2, 1/2))
            ⟨"nontarget", none, none, none⟩).timestamps.length,
          (generateEEGSignal idJSMath (fun _ => (1/2, 1/2))
              ⟨"nontarget", none, none, none⟩).timestamps.getD i 0
            = ((i : ℚ) * 1000) / jsOrDefault none 250) ∧
        (∀ i, i + 1 < (generateEEGSignal idJSMath (fun _ => (1/2, 1/2))
            ⟨"nontarget", none, none, none⟩).timestamps.length →
          (generateEEGSignal idJSMath (fun _ => (1/2, 1/2))
              ⟨"nontarget", none, none, none⟩).timestamps.getD i 0
              < (generateEEGSignal idJSMath (fun _ => (1/2, 1/2))
                  ⟨"nontarget", none, none, none⟩).timestamps.getD (i + 1) 0 ∧
            (generateEEGSignal idJSMath (fun _ => (1/2, 1/2))
                ⟨"nontarget", none, none, none⟩).timestamps.getD (i + 1) 0
                - (generateEEGSignal idJSMath (fun _ => (1/2, 1/2))
                    ⟨"nontarget", none, none, none⟩).timestamps.getD i 0
              = 1000 / jsOrDefault none 250)) :=
  ⟨⟨by norm_num [jsOrDefault], by norm_num [jsOrDefault]⟩,
    c10_simulate_series idJSMath (fun _ => (1/2, 1/2))
      ⟨"nontarget", none, none, none⟩ (by norm_num [jsOrDefault])
      (by norm_num [jsOrDefault])⟩

/-- C8: with time-aligned equal-length inputs and a non-empty analysis
window, `extractFeatures` takes the window from the index of the
timestamp nearest 300 ms through the index nearest 600 ms (minimum
absolute difference, ties to the first occurrence of a left-to-right
scan), and returns the window's arithmetic mean, the maximum of absolute
values as `peak`, and as `latency` the timestamp of the first window
sample whose absolute value equals `peak` exactly. -/
theorem c8_extract_spec (filteredSignal timestamps : List ℚ)
    (hlen : filteredSignal.length = timestamps.length)
    (hw : p300Window filteredSignal timestamps ≠ []) :
    NearestFirstIdx timestamps 300 (findClosestIndex timestamps 300) ∧
      NearestFirstIdx timestamps 600 (findClosestIndex timestamps 600) ∧
      (extractFeatures filteredSignal timestamps).mean =
        (p300Window filteredSignal timestamps).sum /
          ((p300Window filteredSignal timestamps).length : ℚ) ∧
      ((∃ x ∈ p300Window filteredSignal timestamps,
          |x| = (extractFeatures filteredSignal timestamps).peak) ∧
        ∀ x ∈ p300Window filteredSignal timestamps,
          |x| ≤ (extractFeatures filteredSignal timestamps).peak) ∧
      (∃ i < (p300Window filteredSignal timestamps).length,
        |(p300Window filteredSignal timestamps).getD i 0|
            = (extractFeatures filteredSignal timestamps).peak ∧
          (∀ j < i, |(p300Window filteredSignal timestamps).getD j 0|
            ≠ (extractFeatures filteredSignal timestamps).peak) ∧
          (extractFeatures filteredSignal timestamps).latency
            = (p300Window timestamps timestamps).getD i 0) := by
  have hwlen : (p300Window filteredSignal timestamps).length ≠ 0 := by
    simpa [List.length_eq_zero] using hw
  have hfne : filteredSignal ≠ [] := by
    intro h
    exact hw (by simp [p300Window, h])
  have htne : timestamps ≠ [] := by
    intro h
    apply hfne
    rw [← List.length_eq_zero, hlen, h, List.length_nil]
  have hmapne : (p300Window filteredSignal timestamps).map (fun s => |s|) ≠ [] :=
    fun h => hw (List.map_eq_nil_iff.mp h)
  have hpeak : (extractFeatures filteredSignal timestamps).peak
      = listMaxQ ((p300Window filteredSignal timestamps).map (fun s => |s|)) := by
    simp only [extractFeatures, if_neg hwlen]
  have hex : ∃ s ∈ p300Window filteredSignal timestamps,
      (fun s => decide (|s| = listMaxQ ((p300Window filteredSignal
        timestamps).map (fun s => |s|)))) s = true := by
    obtain ⟨x, hx, hxe⟩ := List.mem_map.mp (listMaxQ_mem _ hmapne)
    exact ⟨x, hx, decide_eq_true hxe⟩
  have hidx : (p300Window filteredSignal timestamps).findIdx
      (fun s => decide (|s| = listMaxQ ((p300Window filteredSignal
        timestamps).map (fun s => |s|))))
      < (p300Window filteredSignal timestamps).length :=
    List.findIdx_lt_length_of_exists hex
  refine ⟨findClosestIndex_spec timestamps 300 htne,
    findClosestIndex_spec timestamps 600 htne,
    by simp only [extractFeatures, if_neg hwlen], ⟨?_, ?_⟩, ?_⟩
  · obtain ⟨x, hx, hxe⟩ := List.mem_map.mp (listMaxQ_mem _ hmapne)
    exact ⟨x, hx, by rw [hpeak, hxe]⟩
  · intro x hx
    rw [hpeak]
    exact le_listMaxQ _ _ (List.mem_map_of_mem _ hx)
  · refine ⟨(p300Window filteredSignal timestamps).findIdx
        (fun s => decide (|s| = listMaxQ ((p300Window filteredSignal
          timestamps).map (fun s => |s|)))), hidx, ?_, ?_, ?_⟩
    · rw [hpeak, List.getD_eq_getElem _ _ hidx]
      exact of_decide_eq_true (List.findIdx_getElem (w := hidx))
    · intro j hj
      have hjlen : j < (p300Window filteredSignal timestamps).length :=
        lt_trans hj hidx
      rw [hpeak, List.getD_eq_getElem _ _ hjlen]
      exact of_decide_eq_false (List.not_of_lt_findIdx hj)
    · simp only [extractFeatures, if_neg hwlen]

/-- C8 witness on a concrete pair of aligned lists. -/
theorem c8_witness :
    (([1, 2] : List ℚ).length = ([300, 600] : List ℚ).length ∧
        p300Window [1, 2] [300, 600] ≠ []) ∧
      (NearestFirstIdx [300, 600] 300 (findClosestIndex [300, 600] 300) ∧
        NearestFirstIdx [300, 600] 600 (findClosestIndex [300, 600] 600) ∧
        (extractFeatures [1, 2] [300, 600]).mean =
          (p300Window [1, 2] [300, 600]).sum /
            ((p300Window [1, 2] [300, 600]).length : ℚ) ∧
        ((∃ x ∈ p300Window [1, 2] [300, 600],
            |x| = (extractFeatures [1, 2] [300, 600]).peak) ∧
          ∀ x ∈ p300Window [1, 2] [300, 600],
            |x| ≤ (extractFeatures [1, 2] [300, 600]).peak) ∧
        (∃ i < (p300Window [1, 2] [300, 600]).length,
          |(p300Window [1, 2] [300, 600]).getD i 0|
              = (extractFeatures [1, 2] [300, 600]).peak ∧
            (∀ j < i, |(p300Window [1, 2] [300, 600]).getD j 0|
              ≠ (extractFeatures [1, 2] [300, 600]).peak) ∧
            (extractFeatures [1, 2] [300, 600]).latency
              = (p300Window [300, 600] [300, 600]).getD i 0)) := by
  have hne : p300Window ([1, 2] : List ℚ) [300, 600] ≠ [] := by
    have heq : p300Window ([1, 2] : List ℚ) [300, 600] = [1, 2] := by
      norm_num [p300Window, findClosestIndex, findClosestAux]
    rw [heq]
    simp
  exact ⟨⟨rfl, hne⟩, c8_extract_spec [1, 2] [300, 600] rfl hne⟩

end Claims

end BCICP
